import Mathlib

/-!
# Verification of libsecret's `secret-methods.c` call-orchestration engine

Shallow embedding of the operation chains in `src/library/secret-methods.c`:
the Search chain (fan-out item loads over the paths returned by
`SearchItems`), GetSecrets, Lock/Unlock ("xlock"), Lookup, and the
synchronous variants.

Modelling conventions:
* object paths are `String`s, items/collections/secret values are `Nat`
  identifiers (proxies matter only up to identity here);
* `GHashTable` (string-keyed, insert replaces the previous binding) is an
  association list with explicit erasure on insert (`tblInsert`/`tblLookup`);
* a `GSimpleAsyncResult` is a record of its error slot and the number of
  times `g_simple_async_result_complete` ran; following GLib,
  `g_simple_async_result_take_error` replaces any previously stored error
  (`g_clear_error` then assign), so a later error overwrites an earlier one;
* fallible remote calls are `Except Nat` values supplied as parameters
  (the transport is an external collaborator);
* a C sequence that dereferences a NULL pointer is modelled as the
  explicit `crash` outcome.
-/

deriving instance DecidableEq for Except

namespace Libsecret

abbrev Path := String

/-- Lookup in a string-keyed table (first binding wins; `tblInsert` keeps
keys unique, matching `GHashTable`). -/
def tblLookup {α : Type} : List (Path × α) → Path → Option α
  | [], _ => none
  | (k', v) :: rest, k => if k' = k then some v else tblLookup rest k

/-- Remove every binding of key `k` (helper for `tblInsert`). -/
def tblErase {α : Type} (k : Path) : List (Path × α) → List (Path × α)
  | [] => []
  | (k', v) :: rest => if k' = k then tblErase k rest else (k', v) :: tblErase k rest

/-- `g_hash_table_insert`: the new binding replaces any existing binding of
the same key. -/
def tblInsert {α : Type} (k : Path) (v : α) (t : List (Path × α)) : List (Path × α) :=
  (k, v) :: tblErase k t

/-- The success payload of an `Except`, when there is one. -/
def exceptOk {ε α : Type} : Except ε α → Option α
  | .ok a => some a
  | .error _ => none

/-! ## GSimpleAsyncResult -/

/-- The observable state of a `GSimpleAsyncResult`: the stored error and how
many times `g_simple_async_result_complete` was invoked (each invocation
delivers the chain's completion callback once). -/
structure SimpleResult where
  error : Option Nat
  completions : Nat
  deriving Repr, DecidableEq

/-- `g_simple_async_result_take_error`: stores the error, replacing any
previously stored one (GLib clears the old error before assigning). -/
def takeError (r : SimpleResult) (e : Nat) : SimpleResult :=
  { r with error := some e }

/-- `g_simple_async_result_complete`. -/
def complete (r : SimpleResult) : SimpleResult :=
  { r with completions := r.completions + 1 }

def initRes : SimpleResult := ⟨none, 0⟩

/-! ## The Search chain (`secret_service_search`) -/

/-- `SearchClosure` from the source: the path→item result table, the two
path arrays written by `secret_service_search_for_paths_finish` (`none`
models a still-NULL `gchar **`), and the pending-load counter. -/
structure SearchClosure where
  items : List (Path × Nat)
  unlocked : Option (List Path)
  locked : Option (List Path)
  loading : Nat
  deriving Repr, DecidableEq

def initClosure : SearchClosure := ⟨[], none, none, 0⟩

/-- `search_load_item_async`: if the registry (`_secret_service_find_item_instance`,
an external weak-reference registry) already holds an item for `path`, take
that instance into the results and spawn nothing; otherwise spawn an
asynchronous `secret_item_new` load and increment the pending counter.
Returns the closure plus the list of load calls issued (`[]` or `[path]`). -/
def search_load_item_async (registry : Path → Option Nat) (c : SearchClosure)
    (path : Path) : SearchClosure × List Path :=
  match registry path with
  | some item => ({ c with items := tblInsert path item c.items }, [])
  | none => ({ c with loading := c.loading + 1 }, [path])

/-- One `for` loop of `on_search_paths`: run `search_load_item_async` over
`ps`, accumulating the issued load calls. -/
def searchSpawnAll (registry : Path → Option Nat)
    (st : SearchClosure × List Path) (ps : List Path) : SearchClosure × List Path :=
  ps.foldl (fun acc p =>
    let step := search_load_item_async registry acc.1 p
    (step.1, acc.2 ++ step.2)) st

/-- Result of the `on_search_paths` callback: either the chain keeps running
with a list of outstanding load calls, or the process crashed. -/
inductive SearchStep where
  | crash (res : SimpleResult)
  | running (c : SearchClosure) (res : SimpleResult) (calls : List Path)
  deriving Repr, DecidableEq

/-- `on_search_paths`, straight from the source.  On failure of the initial
`SearchItems` call the code takes the error and completes, but does *not*
return: it falls through to `for (i = 0; closure->unlocked[i] != NULL; i++)`
with `closure->unlocked` still NULL (``secret_service_search_for_paths_finish``
lives in `secret-paths.c`; modelled from the spec, on failure it returns
FALSE and leaves its out-parameters unset, the GLib convention) — a NULL
dereference, modelled as `crash`.  On success it stores both path arrays,
spawns a load per unresolved path, and completes if nothing is pending. -/
def on_search_paths (registry : Path → Option Nat)
    (pathsResult : Except Nat (List Path × List Path))
    (c : SearchClosure) (res : SimpleResult) : SearchStep :=
  match pathsResult with
  | .error e => .crash (complete (takeError res e))
  | .ok (u, l) =>
      let c1 : SearchClosure := { c with unlocked := some u, locked := some l }
      let stU := searchSpawnAll registry (c1, []) u
      let stUL := searchSpawnAll registry stU l
      let res1 := if stUL.1.loading = 0 then complete res else res
      .running stUL.1 res1 stUL.2

/-- `on_search_loaded`: decrement the pending counter, store the error if the
load failed (replacing any stored one), insert the item on success, and
complete once the counter reaches zero. -/
def on_search_loaded (p : Path) (loadRes : Except Nat Nat)
    (c : SearchClosure) (res : SimpleResult) : SearchClosure × SimpleResult :=
  let c1 : SearchClosure := { c with loading := c.loading - 1 }
  let res1 := match loadRes with
    | .error e => takeError res e
    | .ok _ => res
  let c2 : SearchClosure := match loadRes with
    | .ok item => { c1 with items := tblInsert p item c1.items }
    | .error _ => c1
  let res2 := if c2.loading = 0 then complete res1 else res1
  (c2, res2)

/-- Deliver the spawned load completions in arrival order `order` (fan-out
completions may arrive in any order). -/
def processLoads (loadResult : Path → Except Nat Nat) (order : List Path)
    (st : SearchClosure × SimpleResult) : SearchClosure × SimpleResult :=
  order.foldl (fun st p => on_search_loaded p (loadResult p) st.1 st.2) st

/-- Final state of one Search chain invocation. -/
inductive SearchOutcome where
  | crash (res : SimpleResult)
  | done (c : SearchClosure) (res : SimpleResult)
  deriving Repr, DecidableEq

def outClosure : SearchOutcome → SearchClosure
  | .crash _ => initClosure
  | .done c _ => c

def outRes : SearchOutcome → SimpleResult
  | .crash r => r
  | .done _ r => r

def isCrash : SearchOutcome → Bool
  | .crash _ => true
  | .done _ _ => false

/-- Run one whole Search chain: `on_search_paths` on the result of the
initial remote call, then the fan-out load completions in arrival order
`order` (meaningful when `order` is a permutation of the spawned calls). -/
def runSearch (registry : Path → Option Nat)
    (pathsResult : Except Nat (List Path × List Path))
    (loadResult : Path → Except Nat Nat) (order : List Path) : SearchOutcome :=
  match on_search_paths registry pathsResult initClosure initRes with
  | .crash r => .crash r
  | .running c res _ =>
      let fin := processLoads loadResult order (c, res)
      .done fin.1 fin.2

/-- The fan-out load calls `on_search_paths` issues on a successful initial
call. -/
def searchCalls (registry : Path → Option Nat) (u l : List Path) : List Path :=
  match on_search_paths registry (.ok (u, l)) initClosure initRes with
  | .running _ _ calls => calls
  | .crash _ => []

/-- The `for` loop of `search_finish_build`: prepend the item found in the
result table for each path, skipping absent ones (`g_list_prepend`). -/
def search_finish_loop (c : SearchClosure) : List Path → List Nat → List Nat
  | [], acc => acc
  | p :: ps, acc =>
      match tblLookup c.items p with
      | some item => search_finish_loop c ps (item :: acc)
      | none => search_finish_loop c ps acc

/-- `search_finish_build`: walk the original path array, prepending found
items, then reverse (`g_list_prepend` + `g_list_reverse`). -/
def search_finish_build (paths : List Path) (c : SearchClosure) : List Nat :=
  (search_finish_loop c paths []).reverse

/-- `secret_service_search_finish`: propagate a stored error (returning no
lists), else rebuild the unlocked and locked item lists in original path
order. -/
def secret_service_search_finish (c : SearchClosure) (res : SimpleResult) :
    Except Nat (List Nat × List Nat) :=
  match res.error with
  | some e => .error e
  | none =>
      .ok (search_finish_build (c.unlocked.getD []) c,
           search_finish_build (c.locked.getD []) c)

/-- The errors that arrive from the fan-out loads, in arrival order. -/
def errsIn (lr : Path → Except Nat Nat) (order : List Path) : List Nat :=
  order.filterMap (fun p => match lr p with | .error e => some e | .ok _ => none)

/-- What sequentially storing each arriving error into the single error slot
leaves behind: the last error, if any arrived. -/
def lastErrWins (init : Option Nat) (errs : List Nat) : Option Nat :=
  errs.foldl (fun _ e => some e) init

/-- The closure state right after `on_search_paths` processed a successful
initial reply `(u, l)`. -/
def spawnClosure (registry : Path → Option Nat) (u l : List Path) : SearchClosure :=
  (searchSpawnAll registry (searchSpawnAll registry
    (({ initClosure with unlocked := some u, locked := some l } : SearchClosure), []) u) l).1

/-- The async-result state right after `on_search_paths` processed a
successful initial reply. -/
def spawnRes (registry : Path → Option Nat) (u l : List Path) : SimpleResult :=
  if (spawnClosure registry u l).loading = 0 then complete initRes else initRes

/-- The item a successful Search chain holds for path `p`: the live
registry instance if one exists, else the freshly loaded item. -/
def itemFor (registry : Path → Option Nat) (lr : Path → Except Nat Nat)
    (p : Path) : Option Nat :=
  match registry p with
  | some i => some i
  | none => exceptOk (lr p)

/-- The observable outcome of a whole search operation, sync or async:
return flag, reported error, and the two caller-supplied out-parameters
(`none` means the caller's variable was never written). -/
structure SearchObs where
  ret : Bool
  err : Option Nat
  outU : Option (List Nat)
  outL : Option (List Nat)
  deriving Repr, DecidableEq

/-- Awaiting the async Search chain and then calling
`secret_service_search_finish` with both out-locations supplied.  The
`crash` case never reaches finish; it is reported with `ret := false` and
nothing written. -/
def searchAsyncObs (registry : Path → Option Nat)
    (pathsResult : Except Nat (List Path × List Path))
    (lr : Path → Except Nat Nat) (order : List Path) : SearchObs :=
  if isCrash (runSearch registry pathsResult lr order) then
    ⟨false, (outRes (runSearch registry pathsResult lr order)).error, none, none⟩
  else
    match secret_service_search_finish
        (outClosure (runSearch registry pathsResult lr order))
        (outRes (runSearch registry pathsResult lr order)) with
    | .error e => ⟨false, some e, none, none⟩
    | .ok (iu, il) => ⟨true, none, some iu, some il⟩

/-- `service_load_items_sync`: load the items for `paths` sequentially,
re-using a live registry instance when there is one and calling
`secret_item_new_sync` otherwise; abort on the first failing load,
returning its error and writing nothing. -/
def service_load_items_sync (registry : Path → Option Nat)
    (lr : Path → Except Nat Nat) : List Path → Except Nat (List Nat)
  | [] => .ok []
  | p :: ps =>
      match (match registry p with | some i => Except.ok i | none => lr p) with
      | .error e => .error e
      | .ok i =>
          match service_load_items_sync registry lr ps with
          | .error e => .error e
          | .ok items => .ok (i :: items)

/-- `secret_service_search_sync` (both out-locations supplied): search for
paths synchronously, then load the unlocked items, then the locked items.
A failure while loading the locked items returns FALSE but leaves the
already-written unlocked list in the caller's out-parameter. -/
def secret_service_search_sync (registry : Path → Option Nat)
    (lr : Path → Except Nat Nat)
    (pathsResult : Except Nat (List Path × List Path)) : SearchObs :=
  match pathsResult with
  | .error e => ⟨false, some e, none, none⟩
  | .ok (u, l) =>
      match service_load_items_sync registry lr u with
      | .error e => ⟨false, some e, none, none⟩
      | .ok itemsU =>
          match service_load_items_sync registry lr l with
          | .error e => ⟨false, some e, some itemsU, none⟩
          | .ok itemsL => ⟨true, none, some itemsU, some itemsL⟩

/-! ## The GetSecrets chain (`secret_service_get_secrets`) -/

/-- A proxy object (item or collection): its object path plus an identity. -/
abbrev GItem := Path × Nat

/-- The path→item table `secret_service_get_secrets` builds from its input
items; `g_hash_table_insert` makes the last write win on duplicate paths. -/
def get_secrets_items_map (items : List GItem) : List (Path × GItem) :=
  items.foldl (fun m it => tblInsert it.1 it m) []

/-- State of one GetSecrets chain after completion: the input map, the
stored reply (`none` models a still-NULL `closure->out`), and the async
result. -/
structure GetChain where
  itemsMap : List (Path × GItem)
  out : Option (List (Path × Option Nat))
  res : SimpleResult
  deriving Repr, DecidableEq

/-- `secret_service_get_secrets` up to chain completion.  `reply` is the
combined outcome of `secret_service_ensure_session` plus the batched
`GetSecrets` call (both failure modes record the error and complete, per
`on_get_secrets_session` / `on_get_secrets_complete`); each reply entry is
a path with its decoded secret (`none` when the external decode yields no
value). -/
def getSecretsRun (items : List GItem)
    (reply : Except Nat (List (Path × Option Nat))) : GetChain :=
  match reply with
  | .error e => ⟨get_secrets_items_map items, none, complete (takeError initRes e)⟩
  | .ok entries => ⟨get_secrets_items_map items, some entries, complete initRes⟩

/-- `_secret_service_decode_get_secrets_all`: iterate the reply, decode each
entry, skip entries whose secret does not decode, and insert the rest into
a fresh path→value table. -/
def decode_get_secrets_all : List (Path × Option Nat) → List (Path × Nat) → List (Path × Nat)
  | [], acc => acc
  | (p, v?) :: rest, acc =>
      match v? with
      | some v => decode_get_secrets_all rest (tblInsert p v acc)
      | none => decode_get_secrets_all rest acc

/-- The join loop of `secret_service_get_secrets_finish`: for each decoded
(path, value) pair, look the path up in the input map; when an input item
is found, add (item, value) to the result, else drop the pair. -/
def get_secrets_join (itemsMap : List (Path × GItem)) :
    List (Path × Nat) → List (GItem × Nat) → List (GItem × Nat)
  | [], acc => acc
  | (p, v) :: rest, acc =>
      match tblLookup itemsMap p with
      | some it => get_secrets_join itemsMap rest (acc ++ [(it, v)])
      | none => get_secrets_join itemsMap rest acc

/-- `secret_service_get_secrets_finish`: a failed batched call propagates as
`none`; otherwise the decoded reply is re-keyed from paths to the input
items.  Input items absent from the reply are simply absent from the
result — not an error. -/
def secret_service_get_secrets_finish (ch : GetChain) : Option (List (GItem × Nat)) :=
  match ch.res.error with
  | some _ => none
  | none =>
      some (get_secrets_join ch.itemsMap
        (decode_get_secrets_all (ch.out.getD []) []) [])

/-- `secret_service_get_secrets_sync`: push a private context, start the
async chain, pump the loop until it completes, then call finish. -/
def secret_service_get_secrets_sync (items : List GItem)
    (reply : Except Nat (List (Path × Option Nat))) : Option (List (GItem × Nat)) :=
  secret_service_get_secrets_finish (getSecretsRun items reply)

/-! ## The Lookup chain (`secret_service_lookup`) -/

/-- A remote call issued by the Lookup chain. -/
inductive LookupCall where
  | getSecret (p : Path)
  | unlockPaths (ps : List Path)
  deriving Repr, DecidableEq

/-- Final state of a Lookup chain: the remote calls issued after the initial
search (in order), the value slot, and the error slot. -/
structure LookupOut where
  trace : List LookupCall
  value : Option Nat
  err : Option Nat
  deriving Repr, DecidableEq

/-- `on_lookup_get_secret`: store the fetched value, or the error. -/
def on_lookup_get_secret (getSecret : Path → Except Nat (Option Nat)) (p : Path) :
    Option Nat × Option Nat :=
  match getSecret p with
  | .ok v => (v, none)
  | .error e => (none, some e)

/-- The Lookup chain from the initial `SearchItems`-for-paths reply onwards
(`on_lookup_searched`, `on_lookup_unlocked`, `on_lookup_get_secret`):
a failed search records the error; a non-empty unlocked sequence fetches
the secret of its first path; else a non-empty locked sequence unlocks
exactly its first path and fetches the secret of the first path the unlock
reports, completing with no value if it reports none; else the chain
completes with no value. -/
def runLookup (searchPaths : Except Nat (List Path × List Path))
    (unlockFn : List Path → Except Nat (List Path))
    (getSecret : Path → Except Nat (Option Nat)) : LookupOut :=
  match searchPaths with
  | .error e => ⟨[], none, some e⟩
  | .ok (u, l) =>
      match u with
      | u0 :: _ =>
          let r := on_lookup_get_secret getSecret u0
          ⟨[.getSecret u0], r.1, r.2⟩
      | [] =>
          match l with
          | l0 :: _ =>
              match unlockFn [l0] with
              | .error e => ⟨[.unlockPaths [l0]], none, some e⟩
              | .ok unlocked =>
                  match unlocked with
                  | p0 :: _ =>
                      let r := on_lookup_get_secret getSecret p0
                      ⟨[.unlockPaths [l0], .getSecret p0], r.1, r.2⟩
                  | [] => ⟨[.unlockPaths [l0]], none, none⟩
          | [] => ⟨[], none, none⟩

/-- `secret_service_lookup_finish`: the (value, error) pair the caller
sees — a stored error yields no value, otherwise the value slot (possibly
empty, which is not an error). -/
def secret_service_lookup_finish (out : LookupOut) : Option Nat × Option Nat :=
  match out.err with
  | some e => (none, some e)
  | none => (out.value, none)

/-- `secret_service_lookup_sync`: push a private context, start the async
chain, pump the loop until it completes, then call finish. -/
def secret_service_lookup_sync (searchPaths : Except Nat (List Path × List Path))
    (unlockFn : List Path → Except Nat (List Path))
    (getSecret : Path → Except Nat (Option Nat)) : Option Nat × Option Nat :=
  secret_service_lookup_finish (runLookup searchPaths unlockFn getSecret)

/-! ## The Lock/Unlock ("xlock") chain -/

/-- `XlockClosure`: the accumulated transitioned paths and the path→object
map built at call time. -/
structure XlockClosure where
  xlocked : List Path
  objects : List (Path × GItem)
  deriving Repr, DecidableEq

structure XlockChain where
  closure : XlockClosure
  res : SimpleResult
  deriving Repr, DecidableEq

/-- Modelled from the spec: `_secret_util_empty_path` lives in
`secret-util.c`, which is not under `src/`; the protocol's defined
"no prompt" sentinel is an empty or root (`"/"`) object path. -/
def empty_path (p : Path) : Bool := p = "" || p = "/"

/-- The path→object table `service_xlock_async` builds from its input
objects (last write wins on duplicate paths). -/
def xlock_objects_map (objs : List GItem) : List (Path × GItem) :=
  objs.foldl (fun m o => tblInsert o.1 o m) []

/-- `on_xlock_called` (composed with `on_xlock_prompted` when a prompt is
required): a failed call records the error and completes; a reply whose
prompt path is the no-prompt sentinel appends the transitioned paths and
completes; otherwise the prompt runs — a prompt failure records the error,
a dismissal adds nothing (and is no error), a confirmation appends the
decoded path sequence — and the chain completes. -/
def on_xlock_called (reply : Except Nat (List Path × Path))
    (promptResult : Except Nat (Option (List Path)))
    (cl : XlockClosure) (res : SimpleResult) : XlockClosure × SimpleResult :=
  match reply with
  | .error e => (cl, complete (takeError res e))
  | .ok (xl, prompt) =>
      if empty_path prompt then
        ({ cl with xlocked := cl.xlocked ++ xl }, complete res)
      else
        match promptResult with
        | .error e => (cl, complete (takeError res e))
        | .ok none => (cl, complete res)
        | .ok (some ps) => ({ cl with xlocked := cl.xlocked ++ ps }, complete res)

/-- One whole Lock/Unlock chain (`service_xlock_async` plus callbacks). -/
def runXlock (objs : List GItem) (reply : Except Nat (List Path × Path))
    (promptResult : Except Nat (Option (List Path))) : XlockChain :=
  let st := on_xlock_called reply promptResult ⟨[], xlock_objects_map objs⟩ initRes
  ⟨st.1, st.2⟩

/-- `service_xlock_paths_finish`: propagate an error as -1 with the
out-parameter untouched; else report the transitioned count and hand out
the transitioned paths. -/
def service_xlock_paths_finish (ch : XlockChain) : Int × Option (List Path) :=
  match ch.res.error with
  | some _ => (-1, none)
  | none => ((ch.closure.xlocked.length : Int), some ch.closure.xlocked)

/-- The rebuild loop of `service_xlock_finish`: prepend the input object
registered for each transitioned path, silently skipping paths that were
not among the inputs (`g_list_prepend`; reversed by the caller). -/
def xlock_finish_loop (objects : List (Path × GItem)) : List Path → List GItem → List GItem
  | [], acc => acc
  | p :: ps, acc =>
      match tblLookup objects p with
      | some o => xlock_finish_loop objects ps (o :: acc)
      | none => xlock_finish_loop objects ps acc

/-- `service_xlock_finish` (with the caller supplying an out-location): get
count and paths from `service_xlock_paths_finish`; only when the count is
positive is the out-parameter written, with each transitioned path
re-associated to its original input object. -/
def service_xlock_finish (ch : XlockChain) : Int × Option (List GItem) :=
  let pf := service_xlock_paths_finish ch
  if pf.1 > 0 then
    (pf.1, some ((xlock_finish_loop ch.closure.objects (pf.2.getD []) []).reverse))
  else
    (pf.1, none)

theorem tblLookup_erase {α : Type} (k p : Path) (t : List (Path × α)) :
    tblLookup (tblErase k t) p = if k = p then none else tblLookup t p := by
  induction t with
  | nil => simp [tblErase, tblLookup]
  | cons kv rest ih =>
      obtain ⟨k', v⟩ := kv
      by_cases hk : k' = k
      · subst hk
        by_cases hp : k' = p
        · subst hp
          simp [tblErase, tblLookup, ih]
        · simp [tblErase, tblLookup, hp, ih]
      · by_cases hp : k' = p
        · subst hp
          simp [tblErase, tblLookup, hk, Ne.symm hk]
        · simp [tblErase, tblLookup, hk, hp, ih]

theorem tblLookup_insert {α : Type} (k p : Path) (v : α) (t : List (Path × α)) :
    tblLookup (tblInsert k v t) p = if k = p then some v else tblLookup t p := by
  by_cases h : k = p <;> simp [tblInsert, tblLookup, h, tblLookup_erase]

/-! ### Characterization of the spawn phase of `on_search_paths` -/

theorem searchSpawnAll_cons (registry : Path → Option Nat)
    (st : SearchClosure × List Path) (q : Path) (t : List Path) :
    searchSpawnAll registry st (q :: t)
      = searchSpawnAll registry
          ((search_load_item_async registry st.1 q).1,
            st.2 ++ (search_load_item_async registry st.1 q).2) t := rfl

theorem searchSpawnAll_snd (registry : Path → Option Nat) (ps : List Path) :
    ∀ st : SearchClosure × List Path,
      (searchSpawnAll registry st ps).2
        = st.2 ++ ps.filter (fun p => (registry p).isNone) := by
  induction ps with
  | nil => intro st; simp [searchSpawnAll]
  | cons q t ih =>
      intro st
      rw [searchSpawnAll_cons]
      cases hr : registry q with
      | some i =>
          rw [ih]
          simp [search_load_item_async, hr, List.filter_cons]
      | none =>
          rw [ih]
          simp [search_load_item_async, hr, List.filter_cons]

theorem searchSpawnAll_loading (registry : Path → Option Nat) (ps : List Path) :
    ∀ st : SearchClosure × List Path,
      (searchSpawnAll registry st ps).1.loading
        = st.1.loading + (ps.filter (fun p => (registry p).isNone)).length := by
  induction ps with
  | nil => intro st; simp [searchSpawnAll]
  | cons q t ih =>
      intro st
      rw [searchSpawnAll_cons]
      cases hr : registry q with
      | some i =>
          rw [ih]
          simp [search_load_item_async, hr, List.filter_cons]
      | none =>
          rw [ih]
          simp [search_load_item_async, hr, List.filter_cons]
          omega

theorem searchSpawnAll_fields (registry : Path → Option Nat) (ps : List Path) :
    ∀ st : SearchClosure × List Path,
      (searchSpawnAll registry st ps).1.unlocked = st.1.unlocked ∧
      (searchSpawnAll registry st ps).1.locked = st.1.locked := by
  induction ps with
  | nil => intro st; simp [searchSpawnAll]
  | cons q t ih =>
      intro st
      rw [searchSpawnAll_cons]
      cases hr : registry q with
      | some i =>
          rw [(ih _).1, (ih _).2]
          simp [search_load_item_async, hr]
      | none =>
          rw [(ih _).1, (ih _).2]
          simp [search_load_item_async, hr]

theorem searchSpawnAll_lookup (registry : Path → Option Nat) (ps : List Path) :
    ∀ (st : SearchClosure × List Path) (p : Path),
      tblLookup (searchSpawnAll registry st ps).1.items p
        = if p ∈ ps ∧ (registry p).isSome then registry p
          else tblLookup st.1.items p := by
  induction ps with
  | nil => intro st p; simp [searchSpawnAll]
  | cons q t ih =>
      intro st p
      rw [searchSpawnAll_cons]
      by_cases hpq : p = q
      · subst hpq
        cases hr : registry p with
        | some i =>
            rw [ih]
            by_cases hpt : p ∈ t
            · simp [hpt, hr]
            · simp [hpt, hr, search_load_item_async, tblLookup_insert]
        | none =>
            rw [ih]
            simp [hr, search_load_item_async]
      · cases hr : registry q with
        | some i =>
            rw [ih]
            simp [search_load_item_async, hr, tblLookup_insert, hpq,
              Ne.symm hpq, List.mem_cons]
        | none =>
            rw [ih]
            simp [search_load_item_async, hr, List.mem_cons, hpq]

/-! ### Characterization of the fan-out completion phase -/

theorem processLoads_cons (lr : Path → Except Nat Nat)
    (st : SearchClosure × SimpleResult) (q : Path) (t : List Path) :
    processLoads lr (q :: t) st
      = processLoads lr t (on_search_loaded q (lr q) st.1 st.2) := rfl

theorem on_search_loaded_fields (p : Path) (e : Except Nat Nat)
    (c : SearchClosure) (res : SimpleResult) :
    (on_search_loaded p e c res).1.loading = c.loading - 1 ∧
    (on_search_loaded p e c res).1.unlocked = c.unlocked ∧
    (on_search_loaded p e c res).1.locked = c.locked ∧
    (on_search_loaded p e c res).2.completions
      = res.completions + (if c.loading - 1 = 0 then 1 else 0) ∧
    (on_search_loaded p e c res).2.error
      = (match e with | .error e0 => some e0 | .ok _ => res.error) := by
  cases e <;> by_cases h : c.loading - 1 = 0 <;>
    simp [on_search_loaded, takeError, complete, h]

theorem lastErrWins_concat (init : Option Nat) (es : List Nat) (e : Nat) :
    lastErrWins init (es ++ [e]) = some e := by
  simp [lastErrWins, List.foldl_append]

theorem lastErrWins_nil (init : Option Nat) : lastErrWins init [] = init := rfl

theorem processLoads_error (lr : Path → Except Nat Nat) (order : List Path) :
    ∀ st : SearchClosure × SimpleResult,
      (processLoads lr order st).2.error
        = lastErrWins st.2.error (errsIn lr order) := by
  induction order with
  | nil => intro st; simp [processLoads, errsIn, lastErrWins]
  | cons q t ih =>
      intro st
      rw [processLoads_cons, ih]
      have hf := (on_search_loaded_fields q (lr q) st.1 st.2).2.2.2.2
      cases hq : lr q with
      | error e =>
          rw [hq] at hf
          simp only [errsIn, List.filterMap_cons, hq]
          simp [hf, lastErrWins, errsIn]
      | ok i =>
          rw [hq] at hf
          simp only [errsIn, List.filterMap_cons, hq]
          simp [hf, errsIn]

theorem processLoads_fields (lr : Path → Except Nat Nat) (order : List Path) :
    ∀ st : SearchClosure × SimpleResult,
      (processLoads lr order st).1.unlocked = st.1.unlocked ∧
      (processLoads lr order st).1.locked = st.1.locked := by
  induction order with
  | nil => intro st; simp [processLoads]
  | cons q t ih =>
      intro st
      rw [processLoads_cons]
      have hf := on_search_loaded_fields q (lr q) st.1 st.2
      exact ⟨(ih _).1.trans hf.2.1, (ih _).2.trans hf.2.2.1⟩

theorem processLoads_complete (lr : Path → Except Nat Nat) (order : List Path) :
    ∀ st : SearchClosure × SimpleResult, st.1.loading = order.length →
      (processLoads lr order st).1.loading = 0 ∧
      (processLoads lr order st).2.completions
        = st.2.completions + (if order = [] then 0 else 1) := by
  induction order with
  | nil =>
      intro st h
      simp [processLoads, h]
  | cons q t ih =>
      intro st h
      rw [processLoads_cons]
      have hf := on_search_loaded_fields q (lr q) st.1 st.2
      have hload : (on_search_loaded q (lr q) st.1 st.2).1.loading = t.length := by
        rw [hf.1, h]; simp
      rcases ih _ hload with ⟨h0, hcomp⟩
      refine ⟨h0, ?_⟩
      rw [hcomp, hf.2.2.2.1, h]
      cases t with
      | nil => simp
      | cons a s => simp [Nat.succ_ne_zero]

theorem processLoads_lookup (lr : Path → Except Nat Nat) (order : List Path) :
    ∀ (st : SearchClosure × SimpleResult) (p : Path),
      tblLookup (processLoads lr order st).1.items p
        = if p ∈ order ∧ (exceptOk (lr p)).isSome then exceptOk (lr p)
          else tblLookup st.1.items p := by
  induction order with
  | nil => intro st p; simp [processLoads]
  | cons q t ih =>
      intro st p
      rw [processLoads_cons, ih]
      by_cases hpq : p = q
      · subst hpq
        cases hq : lr p with
        | ok i =>
            by_cases hpt : p ∈ t
            · simp [hpt, hq, exceptOk]
            · simp [hpt, hq, exceptOk, on_search_loaded, tblLookup_insert]
        | error e =>
            simp [hq, exceptOk, on_search_loaded]
      · cases hq : lr q with
        | ok i =>
            simp [on_search_loaded, hq, tblLookup_insert, hpq, Ne.symm hpq,
              List.mem_cons]
        | error e =>
            simp [on_search_loaded, hq, List.mem_cons, hpq]

/-! ### End-to-end characterization of a Search chain on a successful
initial call -/

theorem runSearch_ok_eq (registry : Path → Option Nat) (lr : Path → Except Nat Nat)
    (u l order : List Path) :
    runSearch registry (.ok (u, l)) lr order
      = .done (processLoads lr order (spawnClosure registry u l, spawnRes registry u l)).1
              (processLoads lr order (spawnClosure registry u l, spawnRes registry u l)).2 := rfl

theorem searchCalls_eq (registry : Path → Option Nat) (u l : List Path) :
    searchCalls registry u l = (u ++ l).filter (fun p => (registry p).isNone) := by
  show (searchSpawnAll registry (searchSpawnAll registry
      (({ initClosure with unlocked := some u, locked := some l } : SearchClosure), []) u) l).2
    = (u ++ l).filter (fun p => (registry p).isNone)
  rw [searchSpawnAll_snd, searchSpawnAll_snd]
  simp [List.filter_append]

theorem spawnClosure_loading (registry : Path → Option Nat) (u l : List Path) :
    (spawnClosure registry u l).loading = (searchCalls registry u l).length := by
  rw [searchCalls_eq]
  unfold spawnClosure
  rw [searchSpawnAll_loading, searchSpawnAll_loading]
  simp [initClosure, List.filter_append]

theorem spawnClosure_fields (registry : Path → Option Nat) (u l : List Path) :
    (spawnClosure registry u l).unlocked = some u ∧
    (spawnClosure registry u l).locked = some l := by
  unfold spawnClosure
  constructor
  · rw [(searchSpawnAll_fields registry l _).1, (searchSpawnAll_fields registry u _).1]
  · rw [(searchSpawnAll_fields registry l _).2, (searchSpawnAll_fields registry u _).2]

theorem spawnClosure_lookup (registry : Path → Option Nat) (u l : List Path) (p : Path) :
    tblLookup (spawnClosure registry u l).items p
      = if p ∈ u ++ l ∧ (registry p).isSome then registry p else none := by
  unfold spawnClosure
  rw [searchSpawnAll_lookup, searchSpawnAll_lookup]
  by_cases hs : (registry p).isSome
  · by_cases hu : p ∈ u <;> by_cases hl : p ∈ l <;>
      simp [hs, hu, hl, List.mem_append, tblLookup, initClosure]
  · simp [hs, List.mem_append, tblLookup, initClosure]

theorem spawnRes_eq (registry : Path → Option Nat) (u l : List Path) :
    spawnRes registry u l
      = ⟨none, if searchCalls registry u l = [] then 1 else 0⟩ := by
  unfold spawnRes
  rw [spawnClosure_loading]
  by_cases h : searchCalls registry u l = []
  · simp [h, complete, initRes]
  · simp [h, List.length_eq_zero, initRes]

/-- Master characterization of a Search chain whose initial `SearchItems`
call succeeded, with the fan-out completions arriving in any order `order`
(a permutation of the spawned load calls): the chain terminates without
crashing, the completion callback runs exactly once, the surfaced error is
the last-arriving load error, and the result table maps each path to the
registry instance when one was live, else to the loaded item when its load
succeeded. -/
theorem runSearch_ok_spec (registry : Path → Option Nat) (lr : Path → Except Nat Nat)
    (u l order : List Path) (hperm : order.Perm (searchCalls registry u l)) :
    isCrash (runSearch registry (.ok (u, l)) lr order) = false ∧
    (outRes (runSearch registry (.ok (u, l)) lr order)).completions = 1 ∧
    (outRes (runSearch registry (.ok (u, l)) lr order)).error
      = lastErrWins none (errsIn lr order) ∧
    (outClosure (runSearch registry (.ok (u, l)) lr order)).unlocked = some u ∧
    (outClosure (runSearch registry (.ok (u, l)) lr order)).locked = some l ∧
    ∀ p, tblLookup (outClosure (runSearch registry (.ok (u, l)) lr order)).items p
      = if p ∈ u ++ l ∧ (registry p).isSome then registry p
        else if p ∈ order ∧ (exceptOk (lr p)).isSome then exceptOk (lr p)
        else none := by
  have heq := runSearch_ok_eq registry lr u l order
  have hload : (spawnClosure registry u l).loading = order.length := by
    rw [spawnClosure_loading, hperm.length_eq]
  rcases processLoads_complete lr order (spawnClosure registry u l, spawnRes registry u l)
    hload with ⟨hl0, hcomp⟩
  refine ⟨?_, ?_, ?_, ?_, ?_, ?_⟩
  · rw [heq]; rfl
  · rw [heq]
    simp only [outRes]
    rw [hcomp, spawnRes_eq]
    by_cases hc : searchCalls registry u l = []
    · have hor : order = [] := by
        rw [hc] at hperm
        exact hperm.eq_nil
      simp [hc, hor]
    · have hor : order ≠ [] := by
        intro h0
        subst h0
        exact hc hperm.symm.eq_nil
      simp [hc, hor]
  · rw [heq]
    simp only [outRes]
    rw [processLoads_error, spawnRes_eq]
  · rw [heq]
    simp only [outClosure]
    rw [(processLoads_fields lr order _).1]
    exact (spawnClosure_fields registry u l).1
  · rw [heq]
    simp only [outClosure]
    rw [(processLoads_fields lr order _).2]
    exact (spawnClosure_fields registry u l).2
  · intro p
    rw [heq]
    simp only [outClosure]
    rw [processLoads_lookup, spawnClosure_lookup]
    by_cases hor : p ∈ order ∧ (exceptOk (lr p)).isSome
    · have hreg : registry p = none := by
        have hp := hperm.mem_iff.mp hor.1
        rw [searchCalls_eq] at hp
        exact Option.isNone_iff_eq_none.mp (List.mem_filter.mp hp).2
      simp [hor, hreg]
    · simp [hor]

/-! ### The finish step -/

theorem search_finish_loop_eq (c : SearchClosure) (paths : List Path) :
    ∀ acc : List Nat,
      (search_finish_loop c paths acc).reverse
        = acc.reverse ++ paths.filterMap (fun p => tblLookup c.items p) := by
  induction paths with
  | nil => intro acc; simp [search_finish_loop]
  | cons a t ih =>
      intro acc
      cases hf : tblLookup c.items a with
      | some b => simp [search_finish_loop, hf, ih, List.filterMap_cons]
      | none => simp [search_finish_loop, hf, ih, List.filterMap_cons]

theorem search_finish_build_eq (paths : List Path) (c : SearchClosure) :
    search_finish_build paths c = paths.filterMap (fun p => tblLookup c.items p) := by
  have h := search_finish_loop_eq c paths []
  simp only [List.reverse_nil, List.nil_append] at h
  simpa [search_finish_build] using h

theorem filterMap_congr_mem {α β : Type} (f g : α → Option β) (l : List α)
    (h : ∀ a ∈ l, f a = g a) : l.filterMap f = l.filterMap g := by
  induction l with
  | nil => rfl
  | cons a t ih =>
      simp only [List.filterMap_cons, h a (by simp)]
      rw [ih (fun b hb => h b (by simp [hb]))]

theorem search_finish_ok_of_perm (registry : Path → Option Nat)
    (lr : Path → Except Nat Nat) (u l order : List Path)
    (hperm : order.Perm (searchCalls registry u l))
    (hok : ∀ p ∈ u ++ l, (itemFor registry lr p).isSome) :
    secret_service_search_finish (outClosure (runSearch registry (.ok (u, l)) lr order))
        (outRes (runSearch registry (.ok (u, l)) lr order))
      = .ok (u.filterMap (itemFor registry lr), l.filterMap (itemFor registry lr)) := by
  obtain ⟨-, -, herr, hu, hl, hlook⟩ := runSearch_ok_spec registry lr u l order hperm
  have horderok : ∀ p ∈ order, ∃ i, lr p = .ok i := by
    intro p hp
    have hpc := hperm.mem_iff.mp hp
    rw [searchCalls_eq] at hpc
    rcases List.mem_filter.mp hpc with ⟨hmem, hnone⟩
    have hrn : registry p = none := Option.isNone_iff_eq_none.mp hnone
    have := hok p hmem
    rw [itemFor, hrn] at this
    cases he : lr p with
    | ok i => exact ⟨i, rfl⟩
    | error e => rw [he] at this; simp [exceptOk] at this
  have herrs : errsIn lr order = [] := by
    rw [errsIn, List.filterMap_eq_nil_iff]
    intro p hp
    rcases horderok p hp with ⟨i, hi⟩
    simp [hi]
  have herrNone : (outRes (runSearch registry (.ok (u, l)) lr order)).error = none := by
    rw [herr, herrs, lastErrWins_nil]
  have hlookFor : ∀ p ∈ u ++ l,
      tblLookup (outClosure (runSearch registry (.ok (u, l)) lr order)).items p
        = itemFor registry lr p := by
    intro p hp
    rw [hlook p]
    cases hr : registry p with
    | some i => simp [hp, hr, itemFor]
    | none =>
        have hpo : p ∈ order := by
          rw [hperm.mem_iff, searchCalls_eq]
          exact List.mem_filter.mpr ⟨hp, by simp [hr]⟩
        have hsome := hok p hp
        rw [itemFor, hr] at hsome
        simp [hr, hpo, hsome, itemFor]
  have e1 := filterMap_congr_mem
    (fun p => tblLookup (outClosure (runSearch registry (.ok (u, l)) lr order)).items p)
    (itemFor registry lr) u
    (fun p hp => hlookFor p (List.mem_append.mpr (Or.inl hp)))
  have e2 := filterMap_congr_mem
    (fun p => tblLookup (outClosure (runSearch registry (.ok (u, l)) lr order)).items p)
    (itemFor registry lr) l
    (fun p hp => hlookFor p (List.mem_append.mpr (Or.inr hp)))
  simp only [secret_service_search_finish, herrNone, hu, hl, Option.getD_some]
  rw [search_finish_build_eq, search_finish_build_eq, e1, e2]

/-- Running the Search chain on a failed initial call: the callback records
the error and completes once, then crashes on the NULL path arrays. -/
theorem runSearch_error_eq (registry : Path → Option Nat)
    (lr : Path → Except Nat Nat) (order : List Path) (e : Nat) :
    runSearch registry (.error e) lr order = .crash ⟨some e, 1⟩ := rfl

/-! ### The synchronous search façade (`secret_service_search_sync`) -/

theorem service_load_items_sync_ok (registry : Path → Option Nat)
    (lr : Path → Except Nat Nat) (ps : List Path)
    (h : ∀ p ∈ ps, (itemFor registry lr p).isSome) :
    service_load_items_sync registry lr ps
      = .ok (ps.filterMap (itemFor registry lr)) := by
  induction ps with
  | nil => rfl
  | cons p t ih =>
      have hp := h p (by simp)
      have ht := ih (fun q hq => h q (by simp [hq]))
      cases hr : registry p with
      | some i =>
          simp [service_load_items_sync, hr, ht, List.filterMap_cons, itemFor]
      | none =>
          rw [itemFor, hr] at hp
          cases hl : lr p with
          | ok i =>
              simp [service_load_items_sync, hr, hl, ht, List.filterMap_cons,
                itemFor, exceptOk]
          | error e => rw [hl] at hp; simp [exceptOk] at hp

/-- When every needed load succeeds, the synchronous search façade returns
exactly what awaiting the async chain and calling finish returns. -/
theorem search_sync_eq_async_of_ok (registry : Path → Option Nat)
    (lr : Path → Except Nat Nat) (u l order : List Path)
    (hperm : order.Perm (searchCalls registry u l))
    (hok : ∀ p ∈ u ++ l, (itemFor registry lr p).isSome) :
    secret_service_search_sync registry lr (.ok (u, l))
      = searchAsyncObs registry (.ok (u, l)) lr order := by
  have hfin := search_finish_ok_of_perm registry lr u l order hperm hok
  have hcrash := (runSearch_ok_spec registry lr u l order hperm).1
  have hu := service_load_items_sync_ok registry lr u
    (fun p hp => hok p (List.mem_append.mpr (Or.inl hp)))
  have hl := service_load_items_sync_ok registry lr l
    (fun p hp => hok p (List.mem_append.mpr (Or.inr hp)))
  unfold searchAsyncObs
  rw [hcrash, hfin]
  simp [secret_service_search_sync, hu, hl]

theorem xlock_finish_loop_eq (objects : List (Path × GItem)) (paths : List Path) :
    ∀ acc : List GItem,
      (xlock_finish_loop objects paths acc).reverse
        = acc.reverse ++ paths.filterMap (fun p => tblLookup objects p) := by
  induction paths with
  | nil => intro acc; simp [xlock_finish_loop]
  | cons a t ih =>
      intro acc
      cases hf : tblLookup objects a with
      | some b => simp [xlock_finish_loop, hf, ih, List.filterMap_cons]
      | none => simp [xlock_finish_loop, hf, ih, List.filterMap_cons]

theorem mem_order_registry_none (registry : Path → Option Nat) (u l order : List Path)
    (hperm : order.Perm (searchCalls registry u l)) (p : Path) (hp : p ∈ order) :
    registry p = none ∧ p ∈ u ++ l := by
  have hpc := hperm.mem_iff.mp hp
  rw [searchCalls_eq] at hpc
  rcases List.mem_filter.mp hpc with ⟨hmem, hnone⟩
  exact ⟨Option.isNone_iff_eq_none.mp hnone, hmem⟩

theorem runXlock_objects (objs : List GItem) (reply : Except Nat (List Path × Path))
    (promptResult : Except Nat (Option (List Path))) :
    (runXlock objs reply promptResult).closure.objects = xlock_objects_map objs := by
  cases reply with
  | error e => rfl
  | ok pr =>
      obtain ⟨xl, prompt⟩ := pr
      simp only [runXlock, on_xlock_called]
      by_cases hp : empty_path prompt
      · simp [hp]
      · cases promptResult with
        | error e => simp [hp]
        | ok o => cases o <;> simp [hp]

/-! ## Claims -/

/-- C1: on a successful initial call the Search chain's completion callback
runs exactly once, however many loads were fanned out and however they
complete; but when the initial search-for-paths call fails, the handler
records the error, completes, and then crashes on the NULL path arrays
instead of terminating normally — the exactly-once-and-return guarantee
does not survive the failure case. -/
theorem c1_search_completes_once (registry : Path → Option Nat)
    (lr : Path → Except Nat Nat) (u l order : List Path)
    (hperm : order.Perm (searchCalls registry u l)) :
    (outRes (runSearch registry (.ok (u, l)) lr order)).completions = 1 ∧
    ∀ e, runSearch registry (.error e) lr order = .crash ⟨some e, 1⟩ :=
  ⟨(runSearch_ok_spec registry lr u l order hperm).2.1,
   fun e => runSearch_error_eq registry lr order e⟩

theorem c1_search_completes_once_witness :
    ((["/b", "/a"] : List Path).Perm (searchCalls (fun _ => none) ["/a"] ["/b"])) ∧
    (outRes (runSearch (fun _ => none) (.ok (["/a"], ["/b"]))
        (fun _ => .ok 1) ["/b", "/a"])).completions = 1 ∧
    ∀ e, runSearch (fun _ => none) (.error e) (fun _ => .ok 1) ["/b", "/a"]
      = .crash ⟨some e, 1⟩ := by
  have hperm : (["/b", "/a"] : List Path).Perm
      (searchCalls (fun _ => none) ["/a"] ["/b"]) := by decide
  exact ⟨hperm,
    c1_search_completes_once (fun _ => none) (fun _ => .ok 1) ["/a"] ["/b"] ["/b", "/a"] hperm⟩

/-- C2: when the initial search-for-paths call fails, `on_search_paths`
does record the error and complete, but it does not abort: lacking the
early return, it then dereferences the unset (NULL) path arrays and the
run crashes instead of finishing cleanly. -/
theorem c2_search_error_no_clean_abort (registry : Path → Option Nat)
    (lr : Path → Except Nat Nat) (order : List Path) (e : Nat) :
    isCrash (runSearch registry (.error e) lr order) = true ∧
    (outRes (runSearch registry (.error e) lr order)).error = some e ∧
    (outRes (runSearch registry (.error e) lr order)).completions = 1 := by
  rw [runSearch_error_eq]
  exact ⟨rfl, rfl, rfl⟩

/-- C3 counterexample: two fan-out loads fail, the first arrival with
error 1 and the second with error 2; the chain surfaces error 2, the
last-arriving one — not the first, as the claim states. -/
theorem c3_first_error_counterexample :
    (outRes (runSearch (fun _ => none) (.ok (["/a", "/b"], []))
        (fun p => if p = "/a" then .error 1 else .error 2) ["/a", "/b"])).error = some 2 ∧
    (outRes (runSearch (fun _ => none) (.ok (["/a", "/b"], []))
        (fun p => if p = "/a" then .error 1 else .error 2) ["/a", "/b"])).error ≠ some 1 := by
  have h : (outRes (runSearch (fun _ => none) (.ok (["/a", "/b"], []))
      (fun p => if p = "/a" then .error 1 else .error 2) ["/a", "/b"])).error = some 2 := by
    decide
  refine ⟨h, ?_⟩
  rw [h]
  simp

/-- C3 (amended): within the fan-out, the LAST-arriving error is the one
surfaced at chain completion — each later error overwrites the stored one,
while later successes never clear it; errors do not prevent completion
(which still fires exactly once) and sibling loads keep being processed:
every successfully loaded sibling is present in the result table. -/
theorem c3_last_error_wins (registry : Path → Option Nat) (lr : Path → Except Nat Nat)
    (u l order : List Path) (hperm : order.Perm (searchCalls registry u l))
    (es : List Nat) (e : Nat) (hes : errsIn lr order = es ++ [e]) :
    (outRes (runSearch registry (.ok (u, l)) lr order)).error = some e ∧
    (outRes (runSearch registry (.ok (u, l)) lr order)).completions = 1 ∧
    ∀ p i, p ∈ order → lr p = .ok i →
      tblLookup (outClosure (runSearch registry (.ok (u, l)) lr order)).items p = some i := by
  obtain ⟨-, hcomp, herr, -, -, hlook⟩ := runSearch_ok_spec registry lr u l order hperm
  refine ⟨?_, hcomp, ?_⟩
  · rw [herr, hes, lastErrWins_concat]
  · intro p i hp hok
    rcases mem_order_registry_none registry u l order hperm p hp with ⟨hreg, -⟩
    rw [hlook p]
    simp [hreg, hp, hok, exceptOk]

theorem c3_last_error_wins_witness :
    ((["/a", "/b"] : List Path).Perm (searchCalls (fun _ => none) ["/a", "/b"] [])) ∧
    (errsIn (fun p => if p = "/b" then .error 2 else .ok 9) ["/a", "/b"] = [] ++ [2]) ∧
    (outRes (runSearch (fun _ => none) (.ok (["/a", "/b"], []))
        (fun p => if p = "/b" then .error 2 else .ok 9) ["/a", "/b"])).error = some 2 ∧
    (outRes (runSearch (fun _ => none) (.ok (["/a", "/b"], []))
        (fun p => if p = "/b" then .error 2 else .ok 9) ["/a", "/b"])).completions = 1 ∧
    ∀ p i, p ∈ (["/a", "/b"] : List Path) →
      (if p = "/b" then Except.error 2 else Except.ok 9) = Except.ok i →
      tblLookup (outClosure (runSearch (fun _ => none) (.ok (["/a", "/b"], []))
        (fun p => if p = "/b" then .error 2 else .ok 9) ["/a", "/b"])).items p = some i := by
  have hperm : (["/a", "/b"] : List Path).Perm
      (searchCalls (fun _ => none) ["/a", "/b"] []) := by decide
  have hes : errsIn (fun p => if p = "/b" then .error 2 else .ok 9) ["/a", "/b"]
      = [] ++ [2] := by decide
  exact ⟨hperm, hes,
    c3_last_error_wins (fun _ => none) (fun p => if p = "/b" then .error 2 else .ok 9)
      ["/a", "/b"] [] ["/a", "/b"] hperm [] 2 hes⟩

/-- C4 counterexample: a search returning one path whose load fails — the
claim expects finish to return the lists with the failed path skipped, but
finish propagates the stored load error and returns no lists at all. -/
theorem c4_skip_failed_counterexample :
    secret_service_search_finish
        (outClosure (runSearch (fun _ => none) (.ok (["/a"], [])) (fun _ => .error 5) ["/a"]))
        (outRes (runSearch (fun _ => none) (.ok (["/a"], [])) (fun _ => .error 5) ["/a"]))
      = .error 5 ∧
    secret_service_search_finish
        (outClosure (runSearch (fun _ => none) (.ok (["/a"], [])) (fun _ => .error 5) ["/a"]))
        (outRes (runSearch (fun _ => none) (.ok (["/a"], [])) (fun _ => .error 5) ["/a"]))
      ≠ .ok ([], []) := by
  have h : secret_service_search_finish
      (outClosure (runSearch (fun _ => none) (.ok (["/a"], [])) (fun _ => .error 5) ["/a"]))
      (outRes (runSearch (fun _ => none) (.ok (["/a"], [])) (fun _ => .error 5) ["/a"]))
      = .error 5 := by rfl
  refine ⟨h, ?_⟩
  rw [h]
  intro hc
  exact Except.noConfusion hc

/-- C4 (amended): when every item load succeeds,
`secret_service_search_finish` returns the unlocked and locked handle lists
in the same relative order as the path sequences returned by the search,
with each path's handle present, and the result is independent of the order
in which the fan-out loads completed (the right-hand side does not mention
`order`); when any load fails, finish instead propagates the stored error
and returns no lists — the skip-missing-paths behavior lives only inside
`search_finish_build`. -/
theorem c4_finish_preserves_order (registry : Path → Option Nat)
    (lr : Path → Except Nat Nat) (u l order : List Path)
    (hperm : order.Perm (searchCalls registry u l))
    (hok : ∀ p ∈ u ++ l, (itemFor registry lr p).isSome) :
    secret_service_search_finish (outClosure (runSearch registry (.ok (u, l)) lr order))
        (outRes (runSearch registry (.ok (u, l)) lr order))
      = .ok (u.filterMap (itemFor registry lr), l.filterMap (itemFor registry lr)) :=
  search_finish_ok_of_perm registry lr u l order hperm hok

theorem c4_finish_preserves_order_witness :
    ((["/y", "/x"] : List Path).Perm
      (searchCalls (fun p => if p = "/r" then some 7 else none) ["/r", "/x"] ["/y"])) ∧
    (∀ p ∈ (["/r", "/x"] ++ ["/y"] : List Path),
      (itemFor (fun q => if q = "/r" then some 7 else none)
        (fun q => if q = "/x" then .ok 3 else .ok 4) p).isSome) ∧
    secret_service_search_finish
        (outClosure (runSearch (fun p => if p = "/r" then some 7 else none)
          (.ok (["/r", "/x"], ["/y"])) (fun q => if q = "/x" then .ok 3 else .ok 4)
          ["/y", "/x"]))
        (outRes (runSearch (fun p => if p = "/r" then some 7 else none)
          (.ok (["/r", "/x"], ["/y"])) (fun q => if q = "/x" then .ok 3 else .ok 4)
          ["/y", "/x"]))
      = .ok ([7, 3], [4]) := by
  have hperm : (["/y", "/x"] : List Path).Perm
      (searchCalls (fun p => if p = "/r" then some 7 else none) ["/r", "/x"] ["/y"]) := by
    decide
  have hok : ∀ p ∈ (["/r", "/x"] ++ ["/y"] : List Path),
      (itemFor (fun q => if q = "/r" then some 7 else none)
        (fun q => if q = "/x" then .ok 3 else .ok 4) p).isSome := by decide
  refine ⟨hperm, hok, ?_⟩
  have h := c4_finish_preserves_order (fun p => if p = "/r" then some 7 else none)
    (fun q => if q = "/x" then .ok 3 else .ok 4) ["/r", "/x"] ["/y"] ["/y", "/x"] hperm hok
  rw [h]
  decide

/-- C5 counterexample: one unlocked path loads fine, the sole locked path's
load fails.  The synchronous search writes the unlocked item list into the
caller's out-parameter and then fails, while awaiting the async chain and
calling finish fails without writing either out-parameter — the sync
variant does not return what the async finish returns. -/
theorem c5_sync_async_counterexample :
    secret_service_search_sync (fun _ => none)
        (fun p => if p = "/a" then .ok 10 else .error 7) (.ok (["/a"], ["/b"]))
      = ⟨false, some 7, some [10], none⟩ ∧
    searchAsyncObs (fun _ => none) (.ok (["/a"], ["/b"]))
        (fun p => if p = "/a" then .ok 10 else .error 7) ["/a", "/b"]
      = ⟨false, some 7, none, none⟩ ∧
    secret_service_search_sync (fun _ => none)
        (fun p => if p = "/a" then .ok 10 else .error 7) (.ok (["/a"], ["/b"]))
      ≠ searchAsyncObs (fun _ => none) (.ok (["/a"], ["/b"]))
          (fun p => if p = "/a" then .ok 10 else .error 7) ["/a", "/b"] := by
  refine ⟨by decide, by decide, by decide⟩

/-- C5 (amended): the sync variants that pump a private loop around the
async chain return exactly the async finish result (GetSecrets, Lookup);
the reimplemented `secret_service_search_sync` agrees with awaiting the
async Search chain whenever every item load succeeds, but diverges from it
when a load fails (see the counterexample: partial out-parameter writes and
a differently chosen error). -/
theorem c5_sync_equals_async_finish :
    (∀ (items : List GItem) (reply : Except Nat (List (Path × Option Nat))),
      secret_service_get_secrets_sync items reply
        = secret_service_get_secrets_finish (getSecretsRun items reply)) ∧
    (∀ (sp : Except Nat (List Path × List Path))
        (uf : List Path → Except Nat (List Path))
        (gs : Path → Except Nat (Option Nat)),
      secret_service_lookup_sync sp uf gs
        = secret_service_lookup_finish (runLookup sp uf gs)) ∧
    (∀ (registry : Path → Option Nat) (lr : Path → Except Nat Nat) (u l order : List Path),
      order.Perm (searchCalls registry u l) →
      (∀ p ∈ u ++ l, (itemFor registry lr p).isSome) →
      secret_service_search_sync registry lr (.ok (u, l))
        = searchAsyncObs registry (.ok (u, l)) lr order) :=
  ⟨fun _ _ => rfl, fun _ _ _ => rfl,
   fun registry lr u l order hperm hok =>
     search_sync_eq_async_of_ok registry lr u l order hperm hok⟩

theorem c5_sync_equals_async_finish_witness :
    ((["/q", "/p"] : List Path).Perm
      (searchCalls (fun x => if x = "/r" then some 7 else none) ["/r", "/p"] ["/q"])) ∧
    (∀ p ∈ (["/r", "/p"] ++ ["/q"] : List Path),
      (itemFor (fun x => if x = "/r" then some 7 else none)
        (fun x => if x = "/p" then .ok 3 else .ok 4) p).isSome) ∧
    secret_service_search_sync (fun x => if x = "/r" then some 7 else none)
        (fun x => if x = "/p" then .ok 3 else .ok 4) (.ok (["/r", "/p"], ["/q"]))
      = searchAsyncObs (fun x => if x = "/r" then some 7 else none)
          (.ok (["/r", "/p"], ["/q"]))
          (fun x => if x = "/p" then .ok 3 else .ok 4) ["/q", "/p"] := by
  have hperm : (["/q", "/p"] : List Path).Perm
      (searchCalls (fun x => if x = "/r" then some 7 else none) ["/r", "/p"] ["/q"]) := by
    decide
  have hok : ∀ p ∈ (["/r", "/p"] ++ ["/q"] : List Path),
      (itemFor (fun x => if x = "/r" then some 7 else none)
        (fun x => if x = "/p" then .ok 3 else .ok 4) p).isSome := by decide
  exact ⟨hperm, hok,
    c5_sync_equals_async_finish.2.2 (fun x => if x = "/r" then some 7 else none)
      (fun x => if x = "/p" then .ok 3 else .ok 4) ["/r", "/p"] ["/q"] ["/q", "/p"]
      hperm hok⟩

/-- C6: for input handles at distinct paths a, b, c and a remote reply
reporting secrets only for a and c, `secret_service_get_secrets_finish`
returns the map holding exactly the input handles for a and c with their
values — the handle for b is absent and its absence is no error — while
the operation returns no map exactly when the batched call itself failed. -/
theorem c6_get_secrets_partial_reply (pa pb pc : Path) (va vc eAny : Nat)
    (hab : pa ≠ pb) (hac : pa ≠ pc) (hbc : pb ≠ pc) :
    secret_service_get_secrets_finish
        (getSecretsRun [(pa, 1), (pb, 2), (pc, 3)] (.ok [(pa, some va), (pc, some vc)]))
      = some [((pc, 3), vc), ((pa, 1), va)] ∧
    secret_service_get_secrets_finish
        (getSecretsRun [(pa, 1), (pb, 2), (pc, 3)] (.error eAny)) = none := by
  constructor
  · simp [secret_service_get_secrets_finish, getSecretsRun, get_secrets_items_map,
      decode_get_secrets_all, get_secrets_join, tblInsert, tblErase, tblLookup,
      complete, takeError, initRes, hab, hac, hbc, Ne.symm hab, Ne.symm hac, Ne.symm hbc]
  · simp [secret_service_get_secrets_finish, getSecretsRun, complete, takeError, initRes]

theorem c6_get_secrets_partial_reply_witness :
    (("/a" : Path) ≠ "/b") ∧ (("/a" : Path) ≠ "/c") ∧ (("/b" : Path) ≠ "/c") ∧
    secret_service_get_secrets_finish
        (getSecretsRun [("/a", 1), ("/b", 2), ("/c", 3)]
          (.ok [("/a", some 11), ("/c", some 13)]))
      = some [(("/c", 3), 13), (("/a", 1), 11)] ∧
    secret_service_get_secrets_finish
        (getSecretsRun [("/a", 1), ("/b", 2), ("/c", 3)] (.error 4)) = none := by
  have h := c6_get_secrets_partial_reply "/a" "/b" "/c" 11 13 4
    (by decide) (by decide) (by decide)
  exact ⟨by decide, by decide, by decide, h.1, h.2⟩

/-- C7: the Lookup chain follows exactly the claimed sequence: a non-empty
unlocked sequence makes it fetch the secret of the first unlocked path
directly (no unlock call); with only locked matches it unlocks exactly the
first locked path and fetches the secret of the first path the unlock
reports, completing with no value and no error when the unlock reports
none; no match at all completes with no value, no calls, and no error; and
a fetched empty secret surfaces as an empty, error-free result. -/
theorem c7_lookup_sequence (uf : List Path → Except Nat (List Path))
    (gs : Path → Except Nat (Option Nat)) :
    (∀ u0 us ls, runLookup (.ok (u0 :: us, ls)) uf gs
        = ⟨[.getSecret u0], (on_lookup_get_secret gs u0).1,
           (on_lookup_get_secret gs u0).2⟩) ∧
    (∀ l0 ls p0 ps, uf [l0] = .ok (p0 :: ps) →
      runLookup (.ok ([], l0 :: ls)) uf gs
        = ⟨[.unlockPaths [l0], .getSecret p0],
           (on_lookup_get_secret gs p0).1, (on_lookup_get_secret gs p0).2⟩) ∧
    (∀ l0 ls, uf [l0] = .ok [] →
      runLookup (.ok ([], l0 :: ls)) uf gs = ⟨[.unlockPaths [l0]], none, none⟩) ∧
    (runLookup (.ok ([], [])) uf gs = ⟨[], none, none⟩) ∧
    (∀ u0 us ls, gs u0 = .ok none →
      secret_service_lookup_finish (runLookup (.ok (u0 :: us, ls)) uf gs)
        = (none, none)) := by
  refine ⟨fun u0 us ls => rfl, ?_, ?_, rfl, ?_⟩
  · intro l0 ls p0 ps h
    simp [runLookup, h]
  · intro l0 ls h
    simp [runLookup, h]
  · intro u0 us ls h
    simp [runLookup, secret_service_lookup_finish, on_lookup_get_secret, h]

theorem c7_lookup_sequence_witness :
    ((fun _ => (Except.ok ["/u1"] : Except Nat (List Path))) [("/l" : Path)]
      = .ok ["/u1"]) ∧
    runLookup (.ok ([], ["/l"])) (fun _ => .ok ["/u1"]) (fun _ => .ok (some 42))
      = ⟨[.unlockPaths ["/l"], .getSecret "/u1"], some 42, none⟩ := by
  refine ⟨rfl, ?_⟩
  have h := (c7_lookup_sequence (fun _ => .ok ["/u1"]) (fun _ => .ok (some 42))).2.1
    "/l" [] "/u1" [] rfl
  simpa [on_lookup_get_secret] using h

/-- C8: on a successful Lock/Unlock chain with a non-empty transitioned
set, finish re-associates each transitioned path to its original input
object through the path→object map built at call time (in transitioned
order), silently excludes transitioned paths that were not among the
inputs, and returns the count of transitioned paths. -/
theorem c8_xlock_finish_reassociates (objs : List GItem)
    (reply : Except Nat (List Path × Path))
    (promptResult : Except Nat (Option (List Path)))
    (herr : (runXlock objs reply promptResult).res.error = none)
    (hne : (runXlock objs reply promptResult).closure.xlocked ≠ []) :
    service_xlock_finish (runXlock objs reply promptResult)
      = (((runXlock objs reply promptResult).closure.xlocked.length : Int),
         some ((runXlock objs reply promptResult).closure.xlocked.filterMap
           (fun p => tblLookup (xlock_objects_map objs) p))) := by
  have hobj := runXlock_objects objs reply promptResult
  have hpf : service_xlock_paths_finish (runXlock objs reply promptResult)
      = (((runXlock objs reply promptResult).closure.xlocked.length : Int),
         some (runXlock objs reply promptResult).closure.xlocked) := by
    simp [service_xlock_paths_finish, herr]
  have hpos : (0 : Int)
      < ((runXlock objs reply promptResult).closure.xlocked.length : Int) := by
    have := List.length_pos.mpr hne
    exact_mod_cast this
  have hloop := xlock_finish_loop_eq (runXlock objs reply promptResult).closure.objects
    (runXlock objs reply promptResult).closure.xlocked []
  simp only [List.reverse_nil, List.nil_append] at hloop
  simp only [service_xlock_finish, hpf]
  rw [if_pos hpos]
  simp only [Option.getD_some]
  rw [hloop, hobj]

theorem c8_xlock_finish_reassociates_witness :
    ((runXlock [("/a", 1), ("/b", 2)] (.ok (["/b", "/z", "/a"], ""))
        (.ok none)).res.error = none) ∧
    ((runXlock [("/a", 1), ("/b", 2)] (.ok (["/b", "/z", "/a"], ""))
        (.ok none)).closure.xlocked ≠ []) ∧
    service_xlock_finish (runXlock [("/a", 1), ("/b", 2)]
        (.ok (["/b", "/z", "/a"], "")) (.ok none))
      = (3, some [("/b", 2), ("/a", 1)]) := by
  have h1 : (runXlock [("/a", 1), ("/b", 2)] (.ok (["/b", "/z", "/a"], ""))
      (.ok none)).res.error = none := by decide
  have h2 : (runXlock [("/a", 1), ("/b", 2)] (.ok (["/b", "/z", "/a"], ""))
      (.ok none)).closure.xlocked ≠ [] := by decide
  refine ⟨h1, h2, ?_⟩
  have h := c8_xlock_finish_reassociates [("/a", 1), ("/b", 2)]
    (.ok (["/b", "/z", "/a"], "")) (.ok none) h1 h2
  rw [h]
  decide

/-- C9: a path whose handle is already live in the registry gets no load
call from the Search chain — the fan-out load calls are exactly the
unregistered paths, in search-reply order — and the live registry instance
is the one placed into the chain's result table for that path, so the chain
never creates a second handle for it. -/
theorem c9_registry_dedup (registry : Path → Option Nat) (lr : Path → Except Nat Nat)
    (u l order : List Path) (hperm : order.Perm (searchCalls registry u l)) :
    searchCalls registry u l = (u ++ l).filter (fun p => (registry p).isNone) ∧
    ∀ p i, registry p = some i → p ∈ u ++ l →
      tblLookup (outClosure (runSearch registry (.ok (u, l)) lr order)).items p
        = some i := by
  obtain ⟨-, -, -, -, -, hlook⟩ := runSearch_ok_spec registry lr u l order hperm
  refine ⟨searchCalls_eq registry u l, ?_⟩
  intro p i hreg hp
  rw [hlook p]
  simp [hp, hreg]

theorem c9_registry_dedup_witness :
    ((["/b"] : List Path).Perm
      (searchCalls (fun p => if p = "/a" then some 7 else none) ["/a"] ["/b"])) ∧
    searchCalls (fun p => if p = "/a" then some 7 else none) ["/a"] ["/b"] = ["/b"] ∧
    tblLookup (outClosure (runSearch (fun p => if p = "/a" then some 7 else none)
        (.ok (["/a"], ["/b"])) (fun _ => .ok 9) ["/b"])).items "/a" = some 7 := by
  have hperm : (["/b"] : List Path).Perm
      (searchCalls (fun p => if p = "/a" then some 7 else none) ["/a"] ["/b"]) := by
    decide
  have h := c9_registry_dedup (fun p => if p = "/a" then some 7 else none)
    (fun _ => .ok 9) ["/a"] ["/b"] ["/b"] hperm
  refine ⟨hperm, ?_, h.2 "/a" 7 (by decide) (by decide)⟩
  rw [h.1]
  decide

/-- C10: when Lock/Unlock finish reports an error (-1) or reports zero
transitioned objects, the caller-supplied out-parameter for the list of
locked/unlocked objects is never written (modelled as `none`). -/
theorem c10_xlock_out_param_frame (objs : List GItem)
    (reply : Except Nat (List Path × Path))
    (promptResult : Except Nat (Option (List Path))) :
    (∀ e, (runXlock objs reply promptResult).res.error = some e →
      service_xlock_finish (runXlock objs reply promptResult) = (-1, none)) ∧
    ((runXlock objs reply promptResult).res.error = none →
      (runXlock objs reply promptResult).closure.xlocked = [] →
      service_xlock_finish (runXlock objs reply promptResult) = (0, none)) := by
  constructor
  · intro e he
    simp [service_xlock_finish, service_xlock_paths_finish, he]
  · intro he hx
    simp [service_xlock_finish, service_xlock_paths_finish, he, hx]

theorem c10_xlock_out_param_frame_witness :
    ((runXlock [] (.error 9) (.ok none)).res.error = some 9) ∧
    service_xlock_finish (runXlock [] (.error 9) (.ok none)) = (-1, none) ∧
    ((runXlock [] (.ok ([], "")) (.ok none)).res.error = none) ∧
    ((runXlock [] (.ok ([], "")) (.ok none)).closure.xlocked = []) ∧
    service_xlock_finish (runXlock [] (.ok ([], "")) (.ok none)) = (0, none) := by
  refine ⟨by decide, ?_, by decide, by decide, ?_⟩
  · exact (c10_xlock_out_param_frame [] (.error 9) (.ok none)).1 9 (by decide)
  · exact (c10_xlock_out_param_frame [] (.ok ([], "")) (.ok none)).2
      (by decide) (by decide)

end Libsecret
